import Mathlib

/-!
Shallow embedding of `src/llama_recipes/utils/config_utils.py`:
the override reconciler (`update_config`), the peft-method resolver
(`generate_peft_config`) and the batching-strategy selector
(`get_dataloader_kwargs`), together with proofs of the specification
claims about them.

Modelling conventions:
* A Python configuration object is a `Config α`: its runtime type name
  plus an association list of attribute names to values (`hasattr` /
  `setattr` / `getattr` below mirror the builtins as used by the source).
* Python exceptions become `Except String`; the error string is the
  exception's message exactly as the source formats it.
* `print`-ed warnings are collected in a returned list of strings.
* `dist.get_rank()` / `dist.get_world_size()` are external queries and
  are passed in as explicit arguments.
-/

namespace ConfigUtils

/-- A Python object as seen by `update_config`: a runtime type name and
an ordered attribute map.  `α` is the type of attribute values (Python is
untyped here; the source never inspects the values it assigns). -/
structure Config (α : Type) where
  typeName : String
  fields : List (String × α)
  deriving Repr, DecidableEq

/-- Python `hasattr(config, k)`. -/
def hasattr {α : Type} (cfg : Config α) (k : String) : Bool :=
  (cfg.fields.lookup k).isSome

/-- Python `getattr(config, k, None)`-style read, for stating results. -/
def getattr {α : Type} (cfg : Config α) (k : String) : Option α :=
  cfg.fields.lookup k

/-- Python `setattr(config, k, v)`: replace the binding when the
attribute exists, append it otherwise.  (`update_config` only ever calls
it after a successful `hasattr` check.) -/
def setattr {α : Type} (cfg : Config α) (k : String) (v : α) : Config α :=
  if hasattr cfg k then
    { cfg with fields := cfg.fields.map (fun p => if p.1 = k then (p.1, v) else p) }
  else
    { cfg with fields := cfg.fields ++ [(k, v)] }

/-- Python's `k.split(sep)` for a single-character separator, on the
character list. `splitOnChar c l` always returns a non-empty list. -/
def splitOnChar (c : Char) : List Char → List (List Char)
  | [] => [[]]
  | x :: xs =>
    let r := splitOnChar c xs
    if x = c then [] :: r
    else
      match r with
      | [] => [[x]]
      | y :: ys => (x :: y) :: ys

/-- Python `k.split(".")`. -/
def pySplitDot (k : String) : List String :=
  (splitOnChar '.' k.data).map (fun cs => ⟨cs⟩)

/-- One iteration of the `for k, v in kwargs.items()` loop body of
`update_config` on a single (non-sequence) config.  Returns the updated
config and the warnings printed, or the uncaught exception's message:
`config_name, param_name = k.split(".")` raises `ValueError` when the
split does not have exactly two parts. -/
def applyKey {α : Type} (cfg : Config α) (k : String) (v : α) :
    Except String (Config α × List String) :=
  if hasattr cfg k then
    .ok (setattr cfg k v, [])
  else if '.' ∈ k.data then
    match pySplitDot k with
    | [configName, paramName] =>
      if cfg.typeName = configName then
        if hasattr cfg paramName then
          .ok (setattr cfg paramName v, [])
        else
          .ok (cfg, ["Warning: " ++ configName ++ " does not accept parameter: " ++ k])
      else
        .ok (cfg, [])
    | _ => .error "too many values to unpack (expected 2)"
  else if cfg.typeName = "train_config" then
    .ok (cfg, ["Warning: unknown parameter " ++ k])
  else
    .ok (cfg, [])

/-- `update_config` on a single config object: fold `applyKey` over the
override items in order, accumulating warnings. -/
def update_config_single {α : Type} (cfg : Config α) :
    List (String × α) → Except String (Config α × List String)
  | [] => .ok (cfg, [])
  | (k, v) :: rest => do
    let (cfg1, w1) ← applyKey cfg k v
    let (cfg2, w2) ← update_config_single cfg1 rest
    .ok (cfg2, w1 ++ w2)

/-- `update_config` on a tuple/list of configs: each element is processed
independently with the same override set, in order. -/
def update_config {α : Type} :
    List (Config α) → List (String × α) → Except String (List (Config α) × List String)
  | [], _ => .ok ([], [])
  | c :: rest, kvs => do
    let (c1, w1) ← update_config_single c kvs
    let (rest1, w2) ← update_config rest kvs
    .ok (c1 :: rest1, w1 ++ w2)

/-- Python `s.rstrip(chars)`: remove trailing characters that belong to
the character set `chars`. -/
def pyRstrip (s : String) (chars : String) : String :=
  ⟨(s.data.reverse.dropWhile (fun c => chars.data.contains c)).reverse⟩

/-- The `configs` tuple of `generate_peft_config`, by type name:
`(lora_config, llama_adapter_config, prefix_config)`. -/
def peftConfigTypeNames : List String :=
  ["lora_config", "llama_adapter_config", "prefix_config"]

/-- The `peft_configs` tuple of `generate_peft_config`, by type name:
`(LoraConfig, AdaptionPromptConfig, PrefixTuningConfig)`. -/
def peftClassNames : List String :=
  ["LoraConfig", "AdaptionPromptConfig", "PrefixTuningConfig"]

/-- `names = tuple(c.__name__.rstrip("_config") for c in configs)`. -/
def peftNames : List String :=
  peftConfigTypeNames.map (fun c => pyRstrip c "_config")

/-- The fields of `train_config` that the embedded functions read. -/
structure TrainConfigR where
  peft_method : String
  enable_fsdp : Bool
  enable_ddp : Bool
  batching_strategy : String
  batch_size_training : Nat
  val_batch_size : Nat
  deriving Repr, DecidableEq

/-- The message of the `RuntimeError` raised for an unknown peft method. -/
def unknownPeftMsg (method : String) : String :=
  "Peft config not found: " ++ method

/-- The message of the `RuntimeError` raised for `peft_method == "prefix"`. -/
def prefixUnsupportedMsg : String :=
  "PrefixTuning is currently not supported (see https://github.com/meta-llama/llama-recipes/issues/359#issuecomment-2089350811)"

/-- The message of the `RuntimeError` raised for `llama_adapter` + FSDP. -/
def adapterFsdpMsg : String :=
  "Llama_adapter is currently not supported in combination with FSDP (see https://github.com/meta-llama/llama-recipes/issues/359#issuecomment-2089274425)"

/-- `generate_peft_config(train_config, kwargs)`.

`defaults` is *modelled from the spec*: the per-method default
configuration dataclasses (`lora_config`, `llama_adapter_config`,
`prefix_config`, defined in `llama_recipes.configs`, which is not part of
the source under verification) are represented as an external map from
the method name to its freshly instantiated default configuration object
("Instantiate the method's default configuration object").  The success
value models `peft_configs[names.index(...)](**asdict(config))` as the
adapter class name paired with the reconciled configuration fields. -/
def generate_peft_config {α : Type} (defaults : String → Config α)
    (tc : TrainConfigR) (kwargs : List (String × α)) :
    Except String (String × Config α) :=
  if tc.peft_method ∉ peftNames then
    .error (unknownPeftMsg tc.peft_method)
  else if tc.peft_method = "prefix" then
    .error prefixUnsupportedMsg
  else if tc.enable_fsdp && tc.peft_method = "llama_adapter" then
    .error adapterFsdpMsg
  else do
    let config := defaults tc.peft_method
    let (config2, _ws) ← update_config_single config kwargs
    let idx := peftNames.indexOf tc.peft_method
    .ok (peftClassNames.getD idx "", config2)

/-- A batch sampler object, by constructor and arguments, as built in the
`padding` branch of `get_dataloader_kwargs`.  `δ` is the dataset type. -/
inductive BatchSamplerObj (δ : Type) where
  /-- `DistributedLengthBasedBatchSampler(dataset, batch_size=..., rank=...,
  num_replicas=..., shuffle=...)` (no `drop_last` argument). -/
  | distributedLengthBased (dataset : δ) (batchSize rank numReplicas : Nat) (shuffle : Bool)
  /-- `LengthBasedBatchSampler(dataset, batch_size, drop_last=..., shuffle=...)`. -/
  | lengthBased (dataset : δ) (batchSize : Nat) (dropLast shuffle : Bool)
  deriving Repr, DecidableEq

/-- A (plain) sampler object, as built in the `packing` branch. -/
inductive SamplerObj (δ : Type) where
  /-- `DistributedSampler(dataset, rank=..., num_replicas=..., shuffle=...,
  drop_last=...)`. -/
  | distributed (dataset : δ) (rank numReplicas : Nat) (shuffle dropLast : Bool)
  deriving Repr, DecidableEq

/-- A collate function value.  `τ` is the tokenizer type. -/
inductive CollateFn (τ : Type) where
  /-- `DataCollatorForSeq2Seq(tokenizer)`. -/
  | seq2seq (tokenizer : τ)
  /-- `default_data_collator`. -/
  | defaultCollator
  deriving Repr, DecidableEq

/-- The `kwargs` dict returned by `get_dataloader_kwargs`: the source only
ever writes the keys `batch_sampler`, `sampler`, `batch_size`, `drop_last`
and `collate_fn`, so the dict is embedded as one optional slot per key
(`none` = key absent). -/
structure LoaderKwargs (δ τ : Type) where
  batch_sampler : Option (BatchSamplerObj δ) := none
  sampler : Option (SamplerObj δ) := none
  batch_size : Option Nat := none
  drop_last : Option Bool := none
  collate_fn : Option (CollateFn τ) := none
  deriving Repr, DecidableEq

/-- `get_dataloader_kwargs(train_config, dataset, tokenizer, mode)`.
`rank` and `worldSize` stand for the external queries `dist.get_rank()`
and `dist.get_world_size()`. -/
def get_dataloader_kwargs {δ τ : Type} (tc : TrainConfigR) (dataset : δ)
    (tokenizer : τ) (mode : String) (rank worldSize : Nat) :
    Except String (LoaderKwargs δ τ) :=
  let batchSize := if mode = "train" then tc.batch_size_training else tc.val_batch_size
  if tc.batching_strategy = "padding" then
    let bs :=
      if tc.enable_fsdp then
        BatchSamplerObj.distributedLengthBased dataset batchSize rank worldSize (mode = "train")
      else
        BatchSamplerObj.lengthBased dataset batchSize true (mode = "train")
    .ok { batch_sampler := some bs, collate_fn := some (.seq2seq tokenizer) }
  else if tc.batching_strategy = "packing" then
    let s :=
      if tc.enable_fsdp then
        some (SamplerObj.distributed dataset rank worldSize (mode = "train") true)
      else if tc.enable_ddp then
        some (SamplerObj.distributed dataset rank worldSize (mode = "train") true)
      else
        none
    .ok { sampler := s, batch_size := some batchSize, drop_last := some true,
          collate_fn := some .defaultCollator }
  else
    .error ("Unknown batching strategy: " ++ tc.batching_strategy)

/-- The warnings printed by one `update_config` loop iteration for a
config that lacks the (dot-free) key `k`: the `train_config` branch warns,
every other config type is silently skipped. -/
def skipWarnings {α : Type} (k : String) (cfg : Config α) : List String :=
  if cfg.typeName = "train_config" then ["Warning: unknown parameter " ++ k] else []

/-- A concrete stand-in for the per-method default configuration objects,
used to instantiate the universally quantified theorems below on concrete
inputs. -/
def sampleDefaults : String → Config Nat :=
  fun n => ⟨n ++ "_config", [("r", 8)]⟩

/-! ### Helper lemmas about the attribute map -/

theorem lookup_map_replace {α : Type} (l : List (String × α)) (k : String) (v : α)
    (h : (l.lookup k).isSome) :
    (l.map (fun p => if p.1 = k then (p.1, v) else p)).lookup k = some v := by
  induction l with
  | nil => simp at h
  | cons a t ih =>
    obtain ⟨a1, a2⟩ := a
    by_cases hak : a1 = k
    · subst hak
      simp [List.lookup_cons]
    · have hb : (k == a1) = false := by
        simp only [beq_eq_false_iff_ne, ne_eq]
        exact fun hh => hak hh.symm
      rw [List.lookup_cons] at h
      simp only [hb] at h
      simp only [List.map_cons, if_neg hak, List.lookup_cons, hb]
      exact ih h

theorem lookup_map_replace_isSome {α : Type} (l : List (String × α)) (k s : String) (v : α) :
    ((l.map (fun p => if p.1 = k then (p.1, v) else p)).lookup s).isSome
      = ((l.lookup s)).isSome := by
  induction l with
  | nil => simp
  | cons a t ih =>
    obtain ⟨a1, a2⟩ := a
    by_cases hak : a1 = k
    · by_cases hsa : s = a1
      · simp [List.lookup_cons, hak, hsa]
      · have hs : (s == a1) = false := by simp [beq_eq_false_iff_ne, hsa]
        simp only [List.map_cons, if_pos hak, List.lookup_cons, hs]
        exact ih
    · by_cases hsa : s = a1
      · simp [List.lookup_cons, hak, hsa]
      · have hs : (s == a1) = false := by simp [beq_eq_false_iff_ne, hsa]
        simp only [List.map_cons, if_neg hak, List.lookup_cons, hs]
        exact ih

theorem setattr_of_hasattr {α : Type} (cfg : Config α) (k : String) (v : α)
    (h : hasattr cfg k = true) :
    setattr cfg k v
      = { cfg with fields := cfg.fields.map (fun p => if p.1 = k then (p.1, v) else p) } := by
  unfold setattr
  rw [if_pos h]

theorem hasattr_setattr {α : Type} (cfg : Config α) (k : String) (v : α)
    (h : hasattr cfg k = true) (s : String) :
    hasattr (setattr cfg k v) s = hasattr cfg s := by
  rw [setattr_of_hasattr cfg k v h]
  unfold hasattr
  exact lookup_map_replace_isSome cfg.fields k s v

theorem getattr_setattr_self {α : Type} (cfg : Config α) (k : String) (v : α)
    (h : hasattr cfg k = true) :
    getattr (setattr cfg k v) k = some v := by
  rw [setattr_of_hasattr cfg k v h]
  unfold getattr
  exact lookup_map_replace cfg.fields k v h

/-! ### Helper lemmas about Python string splitting -/

theorem splitOnChar_ne_nil (c : Char) (l : List Char) : splitOnChar c l ≠ [] := by
  cases l with
  | nil => simp [splitOnChar]
  | cons x xs =>
    simp only [splitOnChar]
    split
    · simp
    · split
      · simp
      · simp

theorem splitOnChar_of_not_mem (c : Char) (l : List Char) (h : c ∉ l) :
    splitOnChar c l = [l] := by
  induction l with
  | nil => rfl
  | cons x xs ih =>
    have hx : ¬x = c := fun hh => h (hh ▸ List.mem_cons_self x xs)
    have hxs : c ∉ xs := fun hh => h (List.mem_cons_of_mem x hh)
    simp only [splitOnChar, if_neg hx, ih hxs]

theorem splitOnChar_append_sep (c : Char) (a b : List Char) (h : c ∉ a) :
    splitOnChar c (a ++ c :: b) = a :: splitOnChar c b := by
  induction a with
  | nil => simp [splitOnChar]
  | cons x xs ih =>
    have hx : ¬x = c := fun hh => h (hh ▸ List.mem_cons_self x xs)
    have hxs : c ∉ xs := fun hh => h (List.mem_cons_of_mem x hh)
    have key := ih hxs
    simp only [List.cons_append, splitOnChar, List.append_eq, if_neg hx, key]

theorem splitOnChar_length (c : Char) (l : List Char) :
    (splitOnChar c l).length = l.count c + 1 := by
  induction l with
  | nil => simp [splitOnChar]
  | cons x xs ih =>
    by_cases hx : x = c
    · simp [splitOnChar, hx, List.count_cons, ih]
    · have hbeq : (x == c) = false := by simp [beq_iff_eq, hx]
      rcases hr : splitOnChar c xs with _ | ⟨y, ys⟩
      · exact absurd hr (splitOnChar_ne_nil c xs)
      · have := ih
        rw [hr] at this
        simp only [splitOnChar, if_neg hx, hr, List.length_cons,
          List.count_cons, hbeq, cond_false]
        simpa using this

theorem pySplitDot_pair (a b : String) (ha : '.' ∉ a.data) (hb : '.' ∉ b.data) :
    pySplitDot (a ++ "." ++ b) = [a, b] := by
  have hdata : (a ++ "." ++ b).data = a.data ++ '.' :: b.data := by
    simp [String.data_append]
  simp only [pySplitDot, hdata, splitOnChar_append_sep '.' a.data b.data ha,
    splitOnChar_of_not_mem '.' b.data hb, List.map_cons, List.map_nil]

/-! ### Case analysis of one `update_config` loop iteration -/

theorem applyKey_of_hasattr {α : Type} (cfg : Config α) (k : String) (v : α)
    (h : hasattr cfg k = true) :
    applyKey cfg k v = .ok (setattr cfg k v, []) := by
  unfold applyKey
  rw [if_pos h]

theorem applyKey_no_dot {α : Type} (cfg : Config α) (k : String) (v : α)
    (h : hasattr cfg k = false) (hd : '.' ∉ k.data) :
    applyKey cfg k v = .ok (cfg, skipWarnings k cfg) := by
  unfold applyKey skipWarnings
  rw [if_neg (by simp [h]), if_neg hd]
  split <;> rfl

theorem applyKey_shape {α : Type} (cfg : Config α) (k : String) (v : α) :
    (∃ ws, applyKey cfg k v = .ok (cfg, ws))
    ∨ (∃ k', hasattr cfg k' = true ∧ applyKey cfg k v = .ok (setattr cfg k' v, []))
    ∨ applyKey cfg k v = .error "too many values to unpack (expected 2)" := by
  unfold applyKey
  by_cases h1 : hasattr cfg k = true
  · right; left; exact ⟨k, h1, by rw [if_pos h1]⟩
  · rw [if_neg h1]
    by_cases h2 : '.' ∈ k.data
    · rw [if_pos h2]
      rcases hsp : pySplitDot k with _ | ⟨cn, _ | ⟨pn, _ | ⟨x, r⟩⟩⟩
      · right; right; simp only [hsp]
      · right; right; simp only [hsp]
      · simp only [hsp]
        by_cases h3 : cfg.typeName = cn
        · rw [if_pos h3]
          by_cases h4 : hasattr cfg pn = true
          · rw [if_pos h4]; right; left; exact ⟨pn, h4, rfl⟩
          · rw [if_neg h4]; left; exact ⟨_, rfl⟩
        · rw [if_neg h3]; left; exact ⟨_, rfl⟩
      · right; right; simp only [hsp]
    · rw [if_neg h2]
      by_cases h3 : cfg.typeName = "train_config"
      · rw [if_pos h3]; left; exact ⟨_, rfl⟩
      · rw [if_neg h3]; left; exact ⟨_, rfl⟩

theorem applyKey_hasattr_eq {α : Type} (cfg cfg' : Config α) (k s : String) (v : α)
    (ws : List String) (h : applyKey cfg k v = .ok (cfg', ws)) :
    hasattr cfg' s = hasattr cfg s := by
  rcases applyKey_shape cfg k v with ⟨ws', hw⟩ | ⟨k', hk', hw⟩ | herr
  · rw [hw] at h
    simp only [Except.ok.injEq, Prod.mk.injEq] at h
    rw [← h.1]
  · rw [hw] at h
    simp only [Except.ok.injEq, Prod.mk.injEq] at h
    rw [← h.1]
    exact hasattr_setattr cfg k' v hk' s
  · rw [herr] at h
    simp at h

theorem applyKey_total {α : Type} (cfg : Config α) (k : String) (v : α)
    (h : hasattr cfg k = true ∨ k.data.count '.' ≤ 1) :
    ∃ out, applyKey cfg k v = .ok out := by
  unfold applyKey
  by_cases h1 : hasattr cfg k = true
  · exact ⟨_, by rw [if_pos h1]⟩
  · rw [if_neg h1]
    by_cases h2 : '.' ∈ k.data
    · have hcount : k.data.count '.' = 1 := by
        rcases h with h | h
        · exact absurd h h1
        · have hpos : 0 < k.data.count '.' := List.count_pos_iff.mpr h2
          omega
      have hlen : (pySplitDot k).length = 2 := by
        simp [pySplitDot, splitOnChar_length, hcount]
      rw [if_pos h2]
      rcases hsp : pySplitDot k with _ | ⟨cn, _ | ⟨pn, _ | ⟨x, r⟩⟩⟩
      · rw [hsp] at hlen; simp at hlen
      · rw [hsp] at hlen; simp at hlen
      · simp only [hsp]
        by_cases h3 : cfg.typeName = cn
        · rw [if_pos h3]
          by_cases h4 : hasattr cfg pn = true
          · rw [if_pos h4]; exact ⟨_, rfl⟩
          · rw [if_neg h4]; exact ⟨_, rfl⟩
        · rw [if_neg h3]; exact ⟨_, rfl⟩
      · rw [hsp] at hlen; simp at hlen
    · rw [if_neg h2]
      by_cases h3 : cfg.typeName = "train_config"
      · rw [if_pos h3]; exact ⟨_, rfl⟩
      · rw [if_neg h3]; exact ⟨_, rfl⟩

/-! ### Behavior of `update_config` on single-key override sets -/

theorem update_config_single_one {α : Type} (cfg : Config α) (k : String) (v : α)
    (out : Config α × List String) (h : applyKey cfg k v = .ok out) :
    update_config_single cfg [(k, v)] = .ok out := by
  obtain ⟨c1, w1⟩ := out
  simp [update_config_single, Bind.bind, Except.bind, h]

theorem update_config_single_set {α : Type} (cfg : Config α) (k : String) (v : α)
    (h : hasattr cfg k = true) :
    update_config_single cfg [(k, v)] = .ok (setattr cfg k v, []) :=
  update_config_single_one cfg k v _ (applyKey_of_hasattr cfg k v h)

theorem update_config_single_skip {α : Type} (cfg : Config α) (k : String) (v : α)
    (h : hasattr cfg k = false) (hd : '.' ∉ k.data) :
    update_config_single cfg [(k, v)] = .ok (cfg, skipWarnings k cfg) :=
  update_config_single_one cfg k v _ (applyKey_no_dot cfg k v h hd)

theorem update_config_all_skip {α : Type} (C : List (Config α)) (k : String) (v : α)
    (h : ∀ c ∈ C, hasattr c k = false) (hd : '.' ∉ k.data) :
    update_config C [(k, v)] = .ok (C, (C.map (skipWarnings k)).flatten) := by
  induction C with
  | nil => rfl
  | cons c rest ih =>
    have h1 := update_config_single_skip c k v (h c (List.mem_cons_self _ _)) hd
    have h2 := ih (fun c' hc' => h c' (List.mem_cons_of_mem _ hc'))
    simp [update_config, Bind.bind, Except.bind, h1, h2]

theorem update_config_frame_aux {α : Type} (A B : List (Config α)) (c0 : Config α)
    (k : String) (v : α) (hd : '.' ∉ k.data) (hc0 : hasattr c0 k = true)
    (hA : ∀ c ∈ A, hasattr c k = false) (hB : ∀ c ∈ B, hasattr c k = false) :
    update_config (A ++ c0 :: B) [(k, v)]
      = .ok (A ++ setattr c0 k v :: B,
             (A.map (skipWarnings k)).flatten ++ (B.map (skipWarnings k)).flatten) := by
  induction A with
  | nil =>
    have h1 := update_config_single_set c0 k v hc0
    have h2 := update_config_all_skip B k v hB hd
    simp [update_config, Bind.bind, Except.bind, h1, h2]
  | cons a A' ih =>
    have h1 := update_config_single_skip a k v (hA a (List.mem_cons_self _ _)) hd
    have h2 := ih (fun c hc => hA c (List.mem_cons_of_mem _ hc))
    simp [update_config, Bind.bind, Except.bind, h1, h2]

theorem update_config_single_total {α : Type} (cfg : Config α)
    (kvs : List (String × α))
    (h : ∀ p ∈ kvs, hasattr cfg p.1 = true ∨ p.1.data.count '.' ≤ 1) :
    ∃ r, update_config_single cfg kvs = .ok r := by
  induction kvs generalizing cfg with
  | nil => exact ⟨(cfg, []), rfl⟩
  | cons p rest ih =>
    obtain ⟨k, v⟩ := p
    obtain ⟨⟨cfg1, w1⟩, h1⟩ := applyKey_total cfg k v (h (k, v) (List.mem_cons_self _ _))
    obtain ⟨⟨cfg2, w2⟩, h2⟩ := ih cfg1 (fun q hq => by
      rcases h q (List.mem_cons_of_mem _ hq) with hh | hh
      · left
        rw [applyKey_hasattr_eq cfg cfg1 k q.1 v w1 h1]
        exact hh
      · right
        exact hh)
    exact ⟨(cfg2, w1 ++ w2), by simp [update_config_single, Bind.bind, Except.bind, h1, h2]⟩

/-! ### Claims about the override reconciler -/

/-- **C1, counterexample.** The claim says `update_config` never raises
for an unknown key, "including keys containing one or more '.'
characters".  It is false: on a config that does not have the attribute,
a key with two dots makes `config_name, param_name = k.split(".")` raise
`ValueError: too many values to unpack (expected 2)`.  Concrete input: a
`train_config` object with a single field `lr`, override `{"a.b.c": 1}`. -/
theorem update_config_double_dot_raises :
    update_config_single (⟨"train_config", [("lr", 3)]⟩ : Config Nat) [("a.b.c", 1)]
      = .error "too many values to unpack (expected 2)" := by
  rfl

/-- **C1 (amended).** `update_config` returns normally (no exception) for
every override set each of whose keys either names an existing field of
the config or contains at most one `'.'` character; unknown keys among
these are handled by a warning or by silently skipping.  (A key that does
not name a field and contains two or more dots raises `ValueError`, as
the counterexample shows.) -/
theorem update_config_no_raise_single_dot {α : Type} (cfg : Config α)
    (kvs : List (String × α))
    (h : ∀ p ∈ kvs, hasattr cfg p.1 = true ∨ p.1.data.count '.' ≤ 1) :
    (update_config_single cfg kvs).isOk = true := by
  obtain ⟨r, hr⟩ := update_config_single_total cfg kvs h
  rw [hr]
  rfl

/-- Witness for `update_config_no_raise_single_dot`: a config with one
field, overridden with a direct hit, a dotted miss and a plain miss. -/
theorem update_config_no_raise_single_dot_witness :
    (update_config_single (⟨"train_config", [("lr", 3)]⟩ : Config Nat)
      [("lr", 5), ("other_config.x", 9), ("unknown", 2)]).isOk = true :=
  update_config_no_raise_single_dot _ _ (by decide)

/-- **C8.** For a config object and a field name `f` it does not have
(attribute names in the source are Python identifiers, hence dot-free):
the dotted key `"<own type name>.f"` produces the warning
`Warning: <type> does not accept parameter: <key>` and leaves the object
unmutated, while the dotted key `"<other type name>.f"` is silently
skipped — no warning, no mutation. -/
theorem update_config_dotted_unknown_field {α : Type} (cfg : Config α)
    (f other : String) (v : α)
    (hf : '.' ∉ f.data) (ht : '.' ∉ cfg.typeName.data) (ho : '.' ∉ other.data)
    (hnf : hasattr cfg f = false)
    (hk1 : hasattr cfg (cfg.typeName ++ "." ++ f) = false)
    (hk2 : hasattr cfg (other ++ "." ++ f) = false)
    (hne : other ≠ cfg.typeName) :
    update_config_single cfg [(cfg.typeName ++ "." ++ f, v)]
      = .ok (cfg, ["Warning: " ++ cfg.typeName ++ " does not accept parameter: "
                    ++ (cfg.typeName ++ "." ++ f)]) ∧
    update_config_single cfg [(other ++ "." ++ f, v)] = .ok (cfg, []) := by
  have hd1 : '.' ∈ (cfg.typeName ++ "." ++ f).data := by
    simp [String.data_append]
  have hd2 : '.' ∈ (other ++ "." ++ f).data := by
    simp [String.data_append]
  constructor
  · apply update_config_single_one
    unfold applyKey
    rw [if_neg (by simp [hk1]), if_pos hd1]
    have hsp := pySplitDot_pair cfg.typeName f ht hf
    simp only [hsp]
    simp [hnf]
  · apply update_config_single_one
    unfold applyKey
    rw [if_neg (by simp [hk2]), if_pos hd2]
    have hsp := pySplitDot_pair other f ho hf
    simp only [hsp]
    rw [if_neg (fun hh => hne hh.symm)]

/-- Witness for `update_config_dotted_unknown_field`, at the spec's
example: `"train_config.nonexistent_field"` warns,
`"OtherConfig.nonexistent_field"` is silently skipped. -/
theorem update_config_dotted_unknown_field_witness :
    update_config_single (⟨"train_config", [("lr", 3)]⟩ : Config Nat)
        [("train_config.nonexistent_field", 1)]
      = .ok (⟨"train_config", [("lr", 3)]⟩,
             ["Warning: train_config does not accept parameter: train_config.nonexistent_field"]) ∧
    update_config_single (⟨"train_config", [("lr", 3)]⟩ : Config Nat)
        [("OtherConfig.nonexistent_field", 1)]
      = .ok (⟨"train_config", [("lr", 3)]⟩, []) :=
  update_config_dotted_unknown_field (⟨"train_config", [("lr", 3)]⟩ : Config Nat)
    "nonexistent_field" "OtherConfig" 1 (by decide) (by decide) (by decide)
    (by decide) (by decide) (by decide) (by decide)

/-- **C9.** For a list of configs in which the (dot-free) key `k` is a
direct field of exactly one element, the single override `{k: v}` sets
that element's field `k` to `v` and returns every other element unchanged
(the skipped elements at most print a warning). -/
theorem update_config_single_field_frame {α : Type} (A B : List (Config α))
    (c0 : Config α) (k : String) (v : α)
    (hd : '.' ∉ k.data) (hc0 : hasattr c0 k = true)
    (hA : ∀ c ∈ A, hasattr c k = false) (hB : ∀ c ∈ B, hasattr c k = false) :
    update_config (A ++ c0 :: B) [(k, v)]
      = .ok (A ++ setattr c0 k v :: B,
             (A.map (skipWarnings k)).flatten ++ (B.map (skipWarnings k)).flatten) ∧
    getattr (setattr c0 k v) k = some v :=
  ⟨update_config_frame_aux A B c0 k v hd hc0 hA hB,
   getattr_setattr_self c0 k v hc0⟩

/-- Witness for `update_config_single_field_frame`: three configs, only
the middle (`train_config`) one has the field `lr`; the override sets it
and leaves the neighbours untouched. -/
theorem update_config_single_field_frame_witness :
    update_config
        ([⟨"lora_config", [("r", 8)]⟩] ++ (⟨"train_config", [("lr", 3)]⟩ : Config Nat)
          :: [⟨"dataset_config", [("path", 0)]⟩])
        [("lr", 5)]
      = .ok ([⟨"lora_config", [("r", 8)]⟩]
              ++ setattr (⟨"train_config", [("lr", 3)]⟩ : Config Nat) "lr" 5
              :: [⟨"dataset_config", [("path", 0)]⟩], []) ∧
    getattr (setattr (⟨"train_config", [("lr", 3)]⟩ : Config Nat) "lr" 5) "lr" = some 5 :=
  update_config_single_field_frame
    [⟨"lora_config", [("r", 8)]⟩] [⟨"dataset_config", [("path", 0)]⟩]
    (⟨"train_config", [("lr", 3)]⟩ : Config Nat) "lr" 5
    (by decide) (by decide) (by decide) (by decide)

/-! ### Claims about the peft-method resolver -/

/-- **C4.** With `peft_method = "llama_adapter"`: if the fully-sharded
flag (`enable_fsdp`) is set the call fails with the incompatibility
error, whose message names both offending settings (`Llama_adapter` and
`FSDP`); if the flag is clear and the override reconciliation succeeds
(otherwise-valid inputs), the call returns the adapter configuration
built by `AdaptionPromptConfig`. -/
theorem generate_peft_config_llama_adapter_fsdp {α : Type}
    (defaults : String → Config α) (tc : TrainConfigR)
    (kwargs : List (String × α)) (hm : tc.peft_method = "llama_adapter") :
    (tc.enable_fsdp = true →
      generate_peft_config defaults tc kwargs = .error adapterFsdpMsg
        ∧ "Llama_adapter".data <:+: adapterFsdpMsg.data
        ∧ "FSDP".data <:+: adapterFsdpMsg.data)
    ∧ (∀ cfg2 ws2, tc.enable_fsdp = false →
        update_config_single (defaults "llama_adapter") kwargs = .ok (cfg2, ws2) →
        generate_peft_config defaults tc kwargs = .ok ("AdaptionPromptConfig", cfg2)) := by
  constructor
  · intro hf
    refine ⟨?_, by decide, by decide⟩
    unfold generate_peft_config
    rw [hm, hf]
    rw [if_neg (by decide), if_neg (by decide), if_pos (by decide)]
  · intro cfg2 ws2 hf hupd
    unfold generate_peft_config
    rw [hm, hf]
    rw [if_neg (by decide), if_neg (by decide), if_neg (by decide)]
    simp only [Bind.bind, Except.bind, hupd]
    have hclass : peftClassNames.getD (List.indexOf "llama_adapter" peftNames) ""
        = "AdaptionPromptConfig" := by decide
    rw [hclass]

/-- Witness for `generate_peft_config_llama_adapter_fsdp`: with the flag
set the concrete call fails with the incompatibility message; with the
flag clear (and an empty override set) it succeeds. -/
theorem generate_peft_config_llama_adapter_fsdp_witness :
    generate_peft_config sampleDefaults
        (⟨"llama_adapter", true, false, "padding", 8, 4⟩ : TrainConfigR) []
      = .error adapterFsdpMsg
    ∧ generate_peft_config sampleDefaults
        (⟨"llama_adapter", false, false, "padding", 8, 4⟩ : TrainConfigR) []
      = .ok ("AdaptionPromptConfig", sampleDefaults "llama_adapter") :=
  ⟨((generate_peft_config_llama_adapter_fsdp sampleDefaults
      (⟨"llama_adapter", true, false, "padding", 8, 4⟩ : TrainConfigR) [] rfl).1 rfl).1,
   (generate_peft_config_llama_adapter_fsdp sampleDefaults
      (⟨"llama_adapter", false, false, "padding", 8, 4⟩ : TrainConfigR) [] rfl).2
     (sampleDefaults "llama_adapter") [] rfl rfl⟩

/-- **C5.** With `peft_method = "prefix"` the call always fails with the
"PrefixTuning is currently not supported" error, whatever the values of
all other fields (in particular the fully-sharded flag, which is checked
only after the `prefix` check); the error's human-readable reason is
distinct from every unknown-name error message. -/
theorem generate_peft_config_prefix_always_fails {α : Type}
    (defaults : String → Config α) (tc : TrainConfigR)
    (kwargs : List (String × α)) (hm : tc.peft_method = "prefix") :
    generate_peft_config defaults tc kwargs = .error prefixUnsupportedMsg
    ∧ ∀ s : String, prefixUnsupportedMsg ≠ unknownPeftMsg s := by
  constructor
  · unfold generate_peft_config
    rw [hm]
    rw [if_neg (by decide), if_pos rfl]
  · intro s hcontra
    unfold unknownPeftMsg at hcontra
    have hdata : prefixUnsupportedMsg.data
        = "Peft config not found: ".data ++ s.data := by
      rw [hcontra, String.data_append]
    have hpre : "Peft config not found: ".data <+: prefixUnsupportedMsg.data :=
      ⟨s.data, hdata.symm⟩
    exact absurd hpre (by decide)

/-- Witness for `generate_peft_config_prefix_always_fails`: the failure
fires even with the fully-sharded flag set. -/
theorem generate_peft_config_prefix_always_fails_witness :
    generate_peft_config sampleDefaults
        (⟨"prefix", true, true, "packing", 8, 4⟩ : TrainConfigR) []
      = .error prefixUnsupportedMsg :=
  (generate_peft_config_prefix_always_fails sampleDefaults
    (⟨"prefix", true, true, "packing", 8, 4⟩ : TrainConfigR) [] rfl).1

/-- **C6.** The registry of peft method names consulted by
`generate_peft_config` (`tuple(c.__name__.rstrip("_config") for c in
configs)`) is exactly `["lora", "llama_adapter", "prefix"]`; every
configuration whose `peft_method` is not one of these three fails with
the unknown-method error — independently of `defaults`, i.e. before any
configuration object is instantiated — and each of the three names is
found by the lookup. -/
theorem peft_registry_exact (α : Type) :
    peftNames = ["lora", "llama_adapter", "prefix"]
    ∧ (∀ (defaults : String → Config α) (tc : TrainConfigR)
        (kwargs : List (String × α)),
        tc.peft_method ∉ (["lora", "llama_adapter", "prefix"] : List String) →
        generate_peft_config defaults tc kwargs
          = .error (unknownPeftMsg tc.peft_method))
    ∧ (∀ n ∈ (["lora", "llama_adapter", "prefix"] : List String), n ∈ peftNames) := by
  refine ⟨by decide, ?_, by decide⟩
  intro defaults tc kwargs hn
  have hnot : tc.peft_method ∉ peftNames := by
    rw [show peftNames = ["lora", "llama_adapter", "prefix"] from by decide]
    exact hn
  unfold generate_peft_config
  rw [if_pos hnot]

/-- Witness for `peft_registry_exact`: the spec's concrete unknown name. -/
theorem peft_registry_exact_witness :
    generate_peft_config sampleDefaults
        (⟨"not_a_real_method", false, false, "padding", 8, 4⟩ : TrainConfigR) []
      = .error (unknownPeftMsg "not_a_real_method") :=
  (peft_registry_exact Nat).2.1 sampleDefaults
    (⟨"not_a_real_method", false, false, "padding", 8, 4⟩ : TrainConfigR) [] (by decide)

/-! ### Claims about the batching-strategy selector -/

/-- **C2.** Strategy `padding`, fully-sharded flag clear, mode `train`:
the result holds a local length-aware batch sampler built with
`drop_last=True` and `shuffle=True` over the training batch size, the
sequence-to-sequence collator bound to the tokenizer, and no top-level
`batch_size` (nor `sampler`/`drop_last`) key. -/
theorem get_dataloader_kwargs_padding_train {δ τ : Type} (tc : TrainConfigR)
    (dataset : δ) (tokenizer : τ) (rank worldSize : Nat)
    (hstrat : tc.batching_strategy = "padding") (hfsdp : tc.enable_fsdp = false) :
    get_dataloader_kwargs tc dataset tokenizer "train" rank worldSize
      = .ok { batch_sampler :=
                some (.lengthBased dataset tc.batch_size_training true true),
              sampler := none, batch_size := none, drop_last := none,
              collate_fn := some (.seq2seq tokenizer) } := by
  simp [get_dataloader_kwargs, hstrat, hfsdp]

/-- Witness for `get_dataloader_kwargs_padding_train` at the spec's
scenario A (`batch_size_training = 8`). -/
theorem get_dataloader_kwargs_padding_train_witness :
    get_dataloader_kwargs (⟨"lora", false, false, "padding", 8, 4⟩ : TrainConfigR)
        (0 : Nat) "tok" "train" 0 1
      = .ok { batch_sampler := some (.lengthBased 0 8 true true),
              sampler := none, batch_size := none, drop_last := none,
              collate_fn := some (.seq2seq "tok") } :=
  get_dataloader_kwargs_padding_train
    (⟨"lora", false, false, "padding", 8, 4⟩ : TrainConfigR) 0 "tok" 0 1 rfl rfl

/-- **C3.** Strategy `packing`, both distributed flags clear, mode `val`:
no sampler or batch-sampler key, `batch_size` equal to `val_batch_size`,
`drop_last` true, and the default (non-padding) collate function. -/
theorem get_dataloader_kwargs_packing_val {δ τ : Type} (tc : TrainConfigR)
    (dataset : δ) (tokenizer : τ) (rank worldSize : Nat)
    (hstrat : tc.batching_strategy = "packing") (hfsdp : tc.enable_fsdp = false)
    (hddp : tc.enable_ddp = false) :
    get_dataloader_kwargs tc dataset tokenizer "val" rank worldSize
      = .ok { batch_sampler := none, sampler := none,
              batch_size := some tc.val_batch_size, drop_last := some true,
              collate_fn := some .defaultCollator } := by
  simp [get_dataloader_kwargs, hstrat, hfsdp, hddp]

/-- Witness for `get_dataloader_kwargs_packing_val` at the spec's
scenario B (`val_batch_size = 4`). -/
theorem get_dataloader_kwargs_packing_val_witness :
    get_dataloader_kwargs (⟨"lora", false, false, "packing", 8, 4⟩ : TrainConfigR)
        (0 : Nat) "tok" "val" 0 1
      = .ok { batch_sampler := none, sampler := none,
              batch_size := some 4, drop_last := some true,
              collate_fn := some .defaultCollator } :=
  get_dataloader_kwargs_packing_val
    (⟨"lora", false, false, "packing", 8, 4⟩ : TrainConfigR) 0 "tok" 0 1 rfl rfl rfl

/-- **C7.** Any strategy other than `padding` and `packing` fails with
`Unknown batching strategy: <strategy>` for every mode and every
combination of the distributed flags (the flags are not inspected on this
path); the error value carries nothing but the message — no sampler,
collate function or other loader argument is observable, and the result
does not depend on the dataset, the tokenizer or the rank queries. -/
theorem get_dataloader_kwargs_unknown_strategy {δ τ : Type} (tc : TrainConfigR)
    (h1 : tc.batching_strategy ≠ "padding")
    (h2 : tc.batching_strategy ≠ "packing") :
    ∀ (dataset : δ) (tokenizer : τ) (mode : String) (rank worldSize : Nat),
      get_dataloader_kwargs tc dataset tokenizer mode rank worldSize
        = .error ("Unknown batching strategy: " ++ tc.batching_strategy) := by
  intro dataset tokenizer mode rank worldSize
  simp [get_dataloader_kwargs, h1, h2]

/-- Witness for `get_dataloader_kwargs_unknown_strategy` at the spec's
`"unknown_strategy"`, with both distributed flags set and mode `train`. -/
theorem get_dataloader_kwargs_unknown_strategy_witness :
    get_dataloader_kwargs
        (⟨"lora", true, true, "unknown_strategy", 8, 4⟩ : TrainConfigR)
        (0 : Nat) "tok" "train" 0 1
      = .error ("Unknown batching strategy: " ++ "unknown_strategy") :=
  get_dataloader_kwargs_unknown_strategy
    (⟨"lora", true, true, "unknown_strategy", 8, 4⟩ : TrainConfigR)
    (by decide) (by decide) 0 "tok" "train" 0 1

/-- **C10.** Under the `packing` strategy the fully-sharded branch and
the standard-distributed branch build `DistributedSampler` with identical
arguments, so the returned loader kwargs are the same whichever of the
two flags selects the branch: the fully-sharded-first precedence has no
observable effect. -/
theorem get_dataloader_kwargs_packing_flag_equiv {δ τ : Type}
    (tc : TrainConfigR) (dataset : δ) (tokenizer : τ) (mode : String)
    (rank worldSize : Nat) (b : Bool) (h : tc.batching_strategy = "packing") :
    get_dataloader_kwargs { tc with enable_fsdp := true, enable_ddp := b }
        dataset tokenizer mode rank worldSize
      = get_dataloader_kwargs { tc with enable_fsdp := false, enable_ddp := true }
        dataset tokenizer mode rank worldSize := by
  simp [get_dataloader_kwargs, h]

/-- Witness for `get_dataloader_kwargs_packing_flag_equiv` on a concrete
packing configuration. -/
theorem get_dataloader_kwargs_packing_flag_equiv_witness :
    get_dataloader_kwargs (⟨"lora", true, false, "packing", 8, 4⟩ : TrainConfigR)
        (0 : Nat) "tok" "val" 3 8
      = get_dataloader_kwargs (⟨"lora", false, true, "packing", 8, 4⟩ : TrainConfigR)
        (0 : Nat) "tok" "val" 3 8 :=
  get_dataloader_kwargs_packing_flag_equiv
    (⟨"lora", false, false, "packing", 8, 4⟩ : TrainConfigR) 0 "tok" "val" 3 8 false rfl

end ConfigUtils
